import Mathlib

/-!
Verification of the alert-scraper core (scrapper.ts, scraper.worker.ts,
alertBus.ts, alertSender.ts) against its natural-language specification.

The TypeScript sources are shallowly embedded below: every pure computation
(text cleaning, rule filtering, item parsing, batch preparation) becomes a
Lean function, database access is modelled by explicit state passing over a
`Db` record, and the worker/DOM boundary is modelled by a record of the
values the DOM queries return for one message block.  JS `number` item ids
are modelled as `Option Int` (`none` is `NaN`, which `parseInt` yields on a
non-numeric id); JS `string | undefined` values are `Option String`; JS
`Date` values constructed from a datetime attribute are carried opaquely as
the wrapped source string, since the pipeline never inspects them.  The one
throwing operation in scope — `BigInt` applied to a NaN item id at the top
of the ingestion batch — is modelled by `processMessagesRun` returning
`Except.error`.
-/

namespace AlertScraper

/-- Media kind of a scraped item: `'photo' | 'video'` in the source. -/
inductive MediaType where
  | photo
  | video
deriving DecidableEq, Repr

/-- A JS `Date` built with `new Date(timeStr)`: the pipeline stores it
without inspecting it, so we carry the constructor argument. -/
structure JsDate where
  raw : String
deriving DecidableEq, Repr

/-- JS `String.prototype.toLowerCase`, restricted to the character ranges
that occur in this program's texts and patterns: ASCII, Latin-1
uppercase letters, the Latin Extended pairs appearing in the scraper's
literal patterns, and basic Cyrillic. -/
def lowerChar (c : Char) : Char :=
  if 65 ≤ c.toNat ∧ c.toNat ≤ 90 then Char.ofNat (c.toNat + 32)
  else if 0xC0 ≤ c.toNat ∧ c.toNat ≤ 0xDE ∧ c.toNat ≠ 0xD7 then Char.ofNat (c.toNat + 32)
  else if c.toNat = 0x11E then Char.ofNat 0x11F
  else if c.toNat = 0x178 then Char.ofNat 0xFF
  else if c.toNat = 0x160 then Char.ofNat 0x161
  else if c.toNat = 0x152 then Char.ofNat 0x153
  else if 0x410 ≤ c.toNat ∧ c.toNat ≤ 0x42F then Char.ofNat (c.toNat + 0x20)
  else if 0x400 ≤ c.toNat ∧ c.toNat ≤ 0x40F then Char.ofNat (c.toNat + 0x50)
  else c

/-- The JS whitespace set (`\s` in a regular expression, and the set
trimmed by `String.prototype.trim`). -/
def jsWhitespaceCodes : List Nat :=
  [0x9, 0xA, 0xB, 0xC, 0xD, 0x20, 0xA0, 0x1680, 0x2000, 0x2001, 0x2002, 0x2003, 0x2004,
   0x2005, 0x2006, 0x2007, 0x2008, 0x2009, 0x200A, 0x2028, 0x2029, 0x202F, 0x205F, 0x3000, 0xFEFF]

def isJsSpace (c : Char) : Bool := jsWhitespaceCodes.contains c.toNat

/-- A character matched by `[^\S\r\n]`: whitespace other than CR and LF. -/
def isJsSpaceNotNL (c : Char) : Bool :=
  isJsSpace c && !(c.toNat == 0xD) && !(c.toNat == 0xA)

/-- JS `String.prototype.trim` on a character list. -/
def trimChars (cs : List Char) : List Char :=
  (((cs.dropWhile isJsSpace).reverse).dropWhile isJsSpace).reverse

/-- JS `String.prototype.trim`. -/
def trimJS (s : String) : String := String.mk (trimChars s.data)

/-- `.replace(/[^\S\r\n]+/g, ' ')`: collapse each maximal run of
non-newline whitespace into a single space.  The flag records whether the
previous character belonged to a run already replaced. -/
def collapseAux : Bool → List Char → List Char
  | _, [] => []
  | inRun, c :: cs =>
    if isJsSpaceNotNL c then
      if inRun then collapseAux true cs else ' ' :: collapseAux true cs
    else c :: collapseAux false cs

def collapseSpaces (cs : List Char) : List Char := collapseAux false cs

/-- Match a literal/character-class pattern (one alternative list per
position, compared case-insensitively as regex flag `i` does) against a
prefix of the input; return the remainder on success. -/
def matchAt : List (List Char) → List Char → Option (List Char)
  | [], cs => some cs
  | _ :: _, [] => none
  | p :: ps, c :: cs =>
    if p.any (fun a => lowerChar a == lowerChar c) then matchAt ps cs else none

theorem matchAt_length : ∀ (pat : List (List Char)) (cs rest : List Char),
    matchAt pat cs = some rest → rest.length + pat.length = cs.length := by
  intro pat
  induction pat with
  | nil => intro cs rest h; simp [matchAt] at h; simp [h]
  | cons p ps ih =>
    intro cs rest h
    cases cs with
    | nil => simp [matchAt] at h
    | cons c cs' =>
      simp only [matchAt] at h
      split at h
      · have := ih cs' rest h
        simp [List.length_cons]
        omega
      · exact absurd h (by simp)

/-- `.replace(/pat/gi, rep)` for a literal/class pattern `p0 :: ps`
(patterns in this program are nonempty): scan left to right, replacing
each non-overlapping match.  The fuel argument, always instantiated with
the input length, bounds the scan; each step consumes at least one input
character, so the fuel never runs out. -/
def replacePatAux (p0 : List Char) (ps : List (List Char)) (rep : List Char) :
    Nat → List Char → List Char
  | 0, cs => cs
  | _ + 1, [] => []
  | fuel + 1, c :: cs =>
    match matchAt (p0 :: ps) (c :: cs) with
    | some rest => rep ++ replacePatAux p0 ps rep fuel rest
    | none => c :: replacePatAux p0 ps rep fuel cs

def replacePatStr (pat : List (List Char)) (rep : String) (s : String) : String :=
  match pat with
  | [] => s
  | p :: ps => String.mk (replacePatAux p ps rep.data s.data.length s.data)

/-- Apostrophe character, written by code to avoid literal quoting issues. -/
def apostChar : Char := Char.ofNat 39

/-- The character class of the two apostrophe-normalisation regexes
(`cleanMessage` and the per-batch `normalize`); the source file stores the
class members as these five codepoints. -/
def apostropheClass : List Char :=
  [Char.ofNat 0xE2, Char.ofNat 0x20AC, Char.ofNat 0x2122, Char.ofNat 0xCA, Char.ofNat 0xBC]

/-- `.replace(/[…]/g, "'")`: rewrite each class member to an apostrophe. -/
def replaceApostrophes (s : String) : String :=
  String.mk (s.data.map (fun c => if apostropheClass.contains c then apostChar else c))

/-- First boilerplate pattern of `cleanMessage` (a literal, flag `gi`). -/
def junkPat1 : List (List Char) :=
  ([Char.ofNat 0x11F, Char.ofNat 0x178, Char.ofNat 0x201C, Char.ofNat 0xB7] ++
    "TlkInst".data).map (fun c => [c])

/-- Second boilerplate pattern of `cleanMessage` (a literal, flag `gi`). -/
def junkPat2 : List (List Char) :=
  ([0x11F, 0x178, 0x11E, 0x161, 0x11E, 0xB0, 0x11E, 0xBD, 0x11E, 0xB0, 0x11E, 0xBB, 0x20,
    0xD1, 0x11E, 0xBE, 0x20, 0xD1, 0xD1, 0x201A, 0xD1, 0x20AC, 0x11E, 0xB8, 0x11E, 0xBC,
    0x11E, 0xB0, 0x11E, 0xBC, 0x11E, 0xB8].map Char.ofNat).map (fun c => [c])

/-- Third boilerplate pattern of `cleanMessage`: a literal followed by a
three-character class, flag `gi`. -/
def junkPat3 : List (List Char) :=
  (([0xE2, 0x153, 0x2026, 0x20, 0x11E, 0x178, 0xD1, 0x2013, 0x11E, 0xB4, 0x11E, 0xBF,
     0x11E, 0xB8, 0xD1, 0x2C6, 0x11E, 0xB8, 0xD1, 0xD1, 0x152, 0x20, 0x11E, 0xBD, 0x11E,
     0xB0, 0x20, 0x11E, 0xA1, 0x11E, 0xA5, 0x11E, 0x2020].map Char.ofNat).map (fun c => [c])) ++
  [[Char.ofNat 0x11E, Char.ofNat 0x201D, Char.ofNat 0x44]]

/-- `cleanMessage` (scrapper.ts): strip boilerplate insertions, normalise
apostrophes, collapse non-newline whitespace runs to single spaces, trim. -/
def cleanMessage (text : String) : String :=
  let s1 := replacePatStr junkPat1 " " text
  let s2 := replacePatStr junkPat2 " " s1
  let s3 := replacePatStr junkPat3 " " s2
  let s4 := replaceApostrophes s3
  let s5 := String.mk (collapseSpaces s4.data)
  String.mk (trimChars s5.data)

/-- JS `String.prototype.toLowerCase` (see `lowerChar`). -/
def toLowerJS (s : String) : String := String.mk (s.data.map lowerChar)

/-- The per-batch `normalize` of `processMessages`:
`s.toLowerCase().replace(/[…]/g, "'").trim()`. -/
def normalize (s : String) : String :=
  trimJS (replaceApostrophes (toLowerJS s))

/-- Does `cs` start with `p`? (used to model JS `includes`). -/
def startsWithSeq : List Char → List Char → Bool
  | _, [] => true
  | [], _ :: _ => false
  | c :: cs, p :: ps => c == p && startsWithSeq cs ps

/-- Does the second list contain the first as a contiguous run? -/
def containsSeq (sub : List Char) : List Char → Bool
  | [] => sub.isEmpty
  | c :: cs => startsWithSeq (c :: cs) sub || containsSeq sub cs

/-- JS `s.includes(sub)`: substring containment. -/
def includesJS (s sub : String) : Bool := containsSeq sub.data s.data

theorem startsWithSeq_iff (sub : List Char) : ∀ cs : List Char,
    startsWithSeq cs sub = true ↔ sub <+: cs := by
  induction sub with
  | nil =>
    intro cs
    cases cs <;> simp [startsWithSeq]
  | cons p ps ih =>
    intro cs
    cases cs with
    | nil => simp [startsWithSeq]
    | cons c cs' =>
      simp only [startsWithSeq, Bool.and_eq_true, beq_iff_eq]
      rw [ih cs']
      constructor
      · rintro ⟨rfl, t, rfl⟩; exact ⟨t, rfl⟩
      · rintro ⟨t, h⟩
        injection h with h1 h2
        exact ⟨h1.symm, t, h2⟩

theorem containsSeq_iff (sub : List Char) : ∀ cs : List Char,
    containsSeq sub cs = true ↔ sub <:+: cs := by
  intro cs
  induction cs with
  | nil =>
    simp only [containsSeq, List.isEmpty_iff]
    constructor
    · rintro rfl; exact List.infix_rfl
    · intro h; exact List.eq_nil_of_infix_nil h
  | cons c cs' ih =>
    simp only [containsSeq, Bool.or_eq_true]
    rw [startsWithSeq_iff, ih]
    constructor
    · rintro (h | h)
      · exact h.isInfix
      · exact h.trans (List.suffix_cons c cs').isInfix
    · rintro ⟨s, t, h⟩
      cases s with
      | nil =>
        left
        exact ⟨t, by simpa using h⟩
      | cons x s' =>
        right
        injection h with h1 h2
        exact ⟨s', t, h2⟩

/-- The character class of the MarkdownV2 `esc` helper
(`/[_*[\]()~`>#+-=|{}.!]/g`); note `+-=` is a character range, covering
codes 0x2B through 0x3D. -/
def inEscClass (c : Char) : Bool :=
  c == Char.ofNat 0x5F || c == Char.ofNat 0x2A || c == Char.ofNat 0x5B ||
  c == Char.ofNat 0x5D || c == Char.ofNat 0x28 || c == Char.ofNat 0x29 ||
  c == Char.ofNat 0x7E || c == Char.ofNat 0x60 || c == Char.ofNat 0x3E ||
  c == Char.ofNat 0x23 || (0x2B ≤ c.toNat && c.toNat ≤ 0x3D) ||
  c == Char.ofNat 0x7C || c == Char.ofNat 0x7B || c == Char.ofNat 0x7D ||
  c == Char.ofNat 0x2E || c == Char.ofNat 0x21

/-- `esc` (processMessages): escape each class character with a backslash. -/
def esc (text : String) : String :=
  String.mk (text.data.flatMap (fun c => if inEscClass c then [Char.ofNat 0x5C, c] else [c]))

/-- JS `String.prototype.split` with a one-character separator (the only
form this program uses: `'/'` and `'\n'`). -/
def splitCharAux (sep : Char) : List Char → List Char → List String
  | acc, [] => [String.mk acc.reverse]
  | acc, c :: cs =>
    if c == sep then String.mk acc.reverse :: splitCharAux sep [] cs
    else splitCharAux sep (c :: acc) cs

def splitChar (sep : Char) (s : String) : List String :=
  splitCharAux sep [] s.data

/-- JS `Array.prototype.join`. -/
def joinWith (sep : String) : List String → String
  | [] => ""
  | [x] => x
  | x :: y :: rest => x ++ sep ++ joinWith sep (y :: rest)

/-- `escapedText.split('\n').map(line => '>' + line).join('\n')`. -/
def quoteLines (s : String) : String :=
  joinWith "\n" ((splitChar (Char.ofNat 0xA) s).map (fun line => ">" ++ line))

/-- The `outMessage` template literal of `processMessages`; the source file
stores the bell and clock pictograms as these codepoint sequences. -/
def renderAlert (escapedName quotedText escapedTime : String) : String :=
  String.mk ([0x11F, 0x178, 0x201D, 0x201D].map Char.ofNat) ++ " *" ++ escapedName ++ "*\n" ++
  quotedText ++ "\n\n" ++ String.mk ([0x11F, 0x178, 0x2022, 0x2019].map Char.ofNat) ++ " " ++
  String.mk [Char.ofNat 0x60] ++ escapedTime ++ String.mk [Char.ofNat 0x60]

/-- JS `parseInt(s, 10)`: skip leading whitespace, optional sign, longest
digit run; `none` models `NaN` (no digits found). -/
def parseIntJS (s : String) : Option Int :=
  let cs := s.data.dropWhile isJsSpace
  let signed : Int × List Char :=
    match cs with
    | c :: r =>
      if c == Char.ofNat 0x2D then (-1, r)
      else if c == Char.ofNat 0x2B then (1, r) else (1, cs)
    | [] => (1, cs)
  let ds := signed.2.takeWhile (fun c => 48 ≤ c.toNat && c.toNat ≤ 57)
  if ds.isEmpty then none
  else some (signed.1 * Int.ofNat (ds.foldl (fun a c => a * 10 + (c.toNat - 48)) 0))

/-- JS `s.split('/').pop() || dflt`: the last `/`-separated segment, or the
default when that segment is the empty string. -/
def lastSegmentOr (s : String) (dflt : String) : String :=
  let seg := (splitChar (Char.ofNat 0x2F) s).getLastD ""
  if seg == "" then dflt else seg

/-- Is a JS `string | undefined` value falsy (`undefined` or `""`)? -/
def jsFalsyStr (o : Option String) : Bool :=
  match o with
  | none => true
  | some s => s == ""

/-- Strip `p` from the front of `cs`, if it is a prefix. -/
def stripPrefixCh : List Char → List Char → Option (List Char)
  | [], cs => some cs
  | _ :: _, [] => none
  | p :: ps, c :: cs => if c == p then stripPrefixCh ps cs else none

def isQuoteCh (c : Char) : Bool := c == Char.ofNat 39 || c == Char.ofNat 34

/-- A character matched by `.` in a JS regex without the `s` flag:
anything but a line terminator. -/
def isRegexDot (c : Char) : Bool :=
  !(c.toNat == 0xA || c.toNat == 0xD || c.toNat == 0x2028 || c.toNat == 0x2029)

/-- The lazy capture `(.+?)['"]\)` of the background-image regex: consume
the shortest nonempty run of `.`-matching characters followed by a quote
and a closing parenthesis. -/
def scanCapture (acc : List Char) : List Char → Option (List Char)
  | [] => none
  | c :: rest =>
    if isRegexDot c then
      match rest with
      | q :: cl :: _ =>
        if isQuoteCh q && cl == Char.ofNat 0x29 then some (c :: acc).reverse
        else scanCapture (c :: acc) rest
      | _ => scanCapture (c :: acc) rest
    else none

/-- Try `/background-image:url\(['"](.+?)['"]\)/` anchored at the start of
`cs`; return the capture group. -/
def bgMatchAt (cs : List Char) : Option (List Char) :=
  match stripPrefixCh "background-image:url(".data cs with
  | none => none
  | some rest =>
    match rest with
    | q :: rest' => if isQuoteCh q then scanCapture [] rest' else none
    | [] => none

/-- Search the whole style string for the first position where the
background-image regex matches (as `String.prototype.match` does). -/
def bgSearch : List Char → Option (List Char)
  | [] => none
  | c :: cs =>
    match bgMatchAt (c :: cs) with
    | some cap => some cap
    | none => bgSearch cs

/-- `style?.match(/background-image:url\(['"](.+?)['"]\)/)` reduced to its
capture group: the extracted media locator, when the style matches. -/
def bgImageUrl (style : String) : Option String :=
  (bgSearch style.data).map String.mk

/-- A raw scraped item (`ScrapedMessage` in both scrapper.ts and
scraper.worker.ts).  `telegramId` is a JS number: `none` models `NaN`. -/
structure ScrapedMessage where
  telegramId : Option Int
  text : String
  mediaUrl : Option String
  mediaType : Option MediaType
  date : JsDate
  sender : Option String
deriving DecidableEq, Repr

/-- One `.tgme_widget_message_wrap` block of the fetched page, as seen
through the DOM queries `scrapeChannel` performs:
* `dataPost`: the `data-post` attribute of the message node;
* `text`: the text of the `js-message_text` node after removing
  `_message_reply` and `_message_author_name` sub-nodes, replacing `<br>`
  with newlines, and trimming;
* `hasPhotoRegion` / `hasVideoRegion`: whether `.tgme_widget_message_photo`
  resp. `.tgme_widget_message_video` nodes exist;
* `photoWrapPresent` / `photoWrapStyle`: presence and `style` attribute of
  `.tgme_widget_message_photo_wrap`;
* `videoTagPresent` / `videoTagSrc`: presence and `src` of a `video`
  element inside the video node;
* `videoSrc` / `videoStyle`: `src` and `style` attributes of the video
  node itself;
* `timeStr`: the `datetime` attribute of the `time` element;
* `author`: the text of `.tgme_widget_message_from_author`. -/
structure MsgBlock where
  dataPost : Option String
  text : String
  hasPhotoRegion : Bool
  hasVideoRegion : Bool
  photoWrapPresent : Bool
  photoWrapStyle : Option String
  videoTagPresent : Bool
  videoTagSrc : Option String
  videoSrc : Option String
  videoStyle : Option String
  timeStr : Option String
  author : String
deriving DecidableEq, Repr

/-- The media-detection step of `scrapeChannel` (scraper.worker.ts,
photo branch then video branch), returning `(mediaUrl, mediaType)`. -/
def detectMedia (b : MsgBlock) : Option String × Option MediaType :=
  let photoRes : Option String × Option MediaType :=
    if b.photoWrapPresent then
      match b.photoWrapStyle.bind bgImageUrl with
      | some u => (some u, some MediaType.photo)
      | none => (none, none)
    else (none, none)
  if !(jsFalsyStr photoRes.1) then photoRes
  else if b.hasVideoRegion then
    if b.videoTagPresent then (b.videoTagSrc, some MediaType.video)
    else if jsFalsyStr b.videoSrc then
      match b.videoStyle.bind bgImageUrl with
      | some u => (some u, some MediaType.video)
      | none => (b.videoSrc, photoRes.2)
    else (b.videoSrc, photoRes.2)
  else photoRes

/-- The per-block body of `scrapeChannel`'s `each` loop: skip blocks
without a post id, without any of text/photo/video, or without a
timestamp; otherwise produce the scraped item. -/
def parseBlock (b : MsgBlock) : Option ScrapedMessage :=
  match b.dataPost with
  | none => none
  | some dataId =>
    if dataId == "" then none
    else
      let messageId := parseIntJS (lastSegmentOr dataId "0")
      if b.text == "" && !b.hasPhotoRegion && !b.hasVideoRegion then none
      else
        match b.timeStr with
        | none => none
        | some ts =>
          if ts == "" then none
          else
            let m := detectMedia b
            some { telegramId := messageId, text := b.text, mediaUrl := m.1,
                   mediaType := m.2, date := JsDate.mk ts,
                   sender :=
                     let a := trimJS b.author
                     if a == "" then none else some a }

/-- `scrapeChannel` restricted to its pure parsing part: the items
produced from the page's message blocks, in page order. -/
def parseBlocks (blocks : List MsgBlock) : List ScrapedMessage :=
  blocks.filterMap parseBlock

/-- A row of the `Channel` table (the feed registry).  Timestamps are
epoch milliseconds; `lastScrapedAt` is nullable. -/
structure Channel where
  id : Nat
  name : Option String
  link : String
  scrapTimeout : Int
  lastScrapedAt : Option Int
deriving DecidableEq, Repr

/-- A row of the `User` table, restricted to the fields the pipeline
reads: recipient identity, do-not-disturb flag, and subscriptions. -/
structure User where
  telegramId : Int
  silentMode : Bool
  subscribedTo : List Nat
deriving DecidableEq, Repr

/-- A row of the `FilterPhrase` table. -/
structure FilterPhrase where
  phrase : String
  exclude : Bool
deriving DecidableEq, Repr

/-- A row of the `Message` table as written by `processMessages`
(`allMessagesToPersist`); `sent` is the persisted filter outcome. -/
structure MessageRow where
  telegramId : Option Int
  message : String
  mediaUrl : Option String
  mediaType : Option MediaType
  date : JsDate
  channelId : Nat
  sent : Bool
deriving DecidableEq, Repr

/-- One rendered delivery item of an alert payload (`AlertItem`,
alertBus.ts). -/
structure AlertItem where
  outMessage : String
  mediaUrl : Option String
  mediaType : Option MediaType
  telegramId : Option Int
deriving DecidableEq, Repr

/-- The Alert Bus message (`AlertsPayload`, alertBus.ts). -/
structure AlertsPayload where
  channelId : Nat
  channelName : String
  items : List AlertItem
  subscriberIds : List Int
deriving DecidableEq, Repr

/-- The database state visible to the pipeline: the four tables it
queries and appends to. -/
structure Db where
  channels : List Channel
  users : List User
  rules : List FilterPhrase
  store : List MessageRow
deriving DecidableEq, Repr

/-- The subscriber query of `processMessages`:
`user.findMany({ where: { subscribedTo: { some: { id } }, silentMode: false } })`. -/
def eligibleSubscribers (users : List User) (channelId : Nat) : List User :=
  users.filter (fun u => u.subscribedTo.contains channelId && !u.silentMode)

/-- The batch existence query of `processMessages`:
`message.findMany({ where: { channelId, telegramId: { in: msgIds } } })`
reduced to the set of ids found. -/
def existingIds (store : List MessageRow) (channelId : Nat)
    (msgIds : List (Option Int)) : List (Option Int) :=
  (store.filter (fun r => r.channelId == channelId && msgIds.contains r.telegramId)).map
    (fun r => r.telegramId)

/-- JS `a || b` on strings (empty string is falsy). -/
def jsOrStr (a b : String) : String := if a == "" then b else a

/-- `channelInfo.name || channelInfo.link || 'Alert'`. -/
def channelDisplayName (ch : Channel) : String :=
  jsOrStr (match ch.name with | some n => n | none => "") (jsOrStr ch.link "Alert")

/-- The normalised exclusion phrases, as computed once per batch:
`rules.filter(r => r.exclude).map(r => normalize(r.phrase))`. -/
def excludeRulesOf (rules : List FilterPhrase) : List String :=
  (rules.filter (fun r => r.exclude)).map (fun r => normalize r.phrase)

/-- The normalised inclusion phrases:
`rules.filter(r => !r.exclude).map(r => normalize(r.phrase))`. -/
def includeRulesOf (rules : List FilterPhrase) : List String :=
  (rules.filter (fun r => !r.exclude)).map (fun r => normalize r.phrase)

/-- The `passedFilter` computation of `processMessages`: no exclusion
phrase occurs in the normalised text, and some inclusion phrase does. -/
def passesFilter (excludeRules includeRules : List String) (normalizedText : String) : Bool :=
  !(excludeRules.any (fun p => includesJS normalizedText p)) &&
  (includeRules.any (fun p => includesJS normalizedText p))

/-- The per-batch constants of `processMessages`, computed once before
the message loop. -/
structure BatchCfg where
  channelId : Nat
  existingSet : List (Option Int)
  excludeRules : List String
  includeRules : List String
  escapedName : String
  receivedTime : String
deriving Repr

/-- The row pushed onto `allMessagesToPersist` for one surviving item. -/
def mkRow (cfg : BatchCfg) (m : ScrapedMessage) : MessageRow :=
  { telegramId := m.telegramId
    message := cleanMessage m.text
    mediaUrl := m.mediaUrl
    mediaType := m.mediaType
    date := m.date
    channelId := cfg.channelId
    sent := passesFilter cfg.excludeRules cfg.includeRules (normalize (cleanMessage m.text)) }

/-- The payload item pushed onto `prepared` for one passing item. -/
def mkPrep (cfg : BatchCfg) (m : ScrapedMessage) : AlertItem :=
  { outMessage := renderAlert cfg.escapedName (quoteLines (esc (cleanMessage m.text)))
      (esc cfg.receivedTime)
    mediaUrl := m.mediaUrl
    mediaType := m.mediaType
    telegramId := m.telegramId }

/-- The message loop of `processMessages` (step 4, PREPARE): drop items
whose id is already present, persist every remaining item with its filter
outcome, and build a payload item for each one that passed. -/
def prepareBatch (cfg : BatchCfg) : List ScrapedMessage → List MessageRow × List AlertItem
  | [] => ([], [])
  | msg :: rest =>
    if cfg.existingSet.contains msg.telegramId then prepareBatch cfg rest
    else
      let pf := passesFilter cfg.excludeRules cfg.includeRules (normalize (cleanMessage msg.text))
      let res := prepareBatch cfg rest
      if pf then (mkRow cfg msg :: res.1, mkPrep cfg msg :: res.2)
      else (mkRow cfg msg :: res.1, res.2)

/-- The result of one `processMessages` call: the rows handed to the bulk
`createMany`, and the payload handed to `emitAlerts` (if any). -/
structure ProcessResult where
  persisted : List MessageRow
  payload : Option AlertsPayload
deriving DecidableEq, Repr

/-- `Scraper.processMessages` (scrapper.ts): pre-fetch channel info,
eligible subscribers and rules; batch-check existing ids; prepare, persist
(appending the bulk write to the store), and emit at most one alert
payload when something passed and somebody is eligible to receive it.
`receivedTime` is the rendered wall-clock time string.  This is the total
remainder of the body: the `BigInt(m.telegramId)` conversion that the
source performs first (line 171) throws for a NaN id, and that fallible
entry is `processMessagesRun` below. -/
def processMessages (db : Db) (channelId : Nat) (messages : List ScrapedMessage)
    (receivedTime : String) : ProcessResult × Db :=
  let channelInfo := db.channels.find? (fun c => c.id == channelId)
  let subscribers := eligibleSubscribers db.users channelId
  match channelInfo with
  | none => (⟨[], none⟩, db)
  | some ch =>
    let channelName := channelDisplayName ch
    let cfg : BatchCfg :=
      { channelId := channelId
        existingSet := existingIds db.store channelId (messages.map (fun m => m.telegramId))
        excludeRules := excludeRulesOf db.rules
        includeRules := includeRulesOf db.rules
        escapedName := esc channelName
        receivedTime := receivedTime }
    let res := prepareBatch cfg messages
    let payload : Option AlertsPayload :=
      if res.2.length > 0 && subscribers.length > 0 then
        some { channelId := channelId, channelName := channelName, items := res.2,
               subscriberIds := subscribers.map (fun u => u.telegramId) }
      else none
    (⟨res.1, payload⟩, { db with store := db.store ++ res.1 })

deriving instance DecidableEq for Except

/-- The fallible entry of `Scraper.processMessages`: after the read-only
pre-fetch queries and the missing-channel early return, line 171
`messages.map(m => BigInt(m.telegramId))` converts every item id, and
`BigInt(NaN)` throws a RangeError that escapes the worker's message
handler — the whole batch is abandoned with nothing persisted, nothing
published and the store untouched.  `Except.error` models that escape;
on the ok path the run is the total remainder `processMessages`. -/
def processMessagesRun (db : Db) (channelId : Nat) (messages : List ScrapedMessage)
    (receivedTime : String) : Except Unit (ProcessResult × Db) :=
  match db.channels.find? (fun c => c.id == channelId) with
  | none => Except.ok (⟨[], none⟩, db)
  | some _ =>
    if messages.any (fun m => m.telegramId.isNone) then Except.error ()
    else Except.ok (processMessages db channelId messages receivedTime)

/-- `lastScrapedAt ? new Date(lastScrapedAt).getTime() : 0`. -/
def lastScrapeMs (ch : Channel) : Int :=
  match ch.lastScrapedAt with
  | some t => t
  | none => 0

/-- A channel is due when `now - lastScrape >= scrapTimeout`. -/
def dueAt (now : Int) (ch : Channel) : Bool :=
  decide (now - lastScrapeMs ch ≥ ch.scrapTimeout)

/-- The output of one scheduler tick: the fetch jobs posted to workers,
and the channels whose timestamps are to be updated. -/
structure CycleResult where
  dispatched : List (String × Nat)
  toScrape : List Channel
deriving DecidableEq, Repr

/-- `Scraper.triggerScrapeCycle` (scrapper.ts): for every registry channel
that is due and has a live worker, post a `{username, channelId}` job and
collect the channel for the batched timestamp update. -/
def triggerScrapeCycle (now : Int) (workers : List Nat) (channels : List Channel) :
    CycleResult :=
  let toScrape := channels.filter (fun ch => dueAt now ch && workers.contains ch.id)
  ⟨toScrape.map (fun ch => (lastSegmentOr ch.link "", ch.id)), toScrape⟩

/-- The per-channel updates inside the tick's transaction:
`channel.update({ where: { id }, data: { lastScrapedAt: now } })` for each
collected id. -/
def applyLastScrapedUpdates (ids : List Nat) (now : Int) (channels : List Channel) :
    List Channel :=
  channels.map (fun c => if ids.contains c.id then { c with lastScrapedAt := some now } else c)

/-- `prisma.$transaction` over the tick's updates, by its contract:
either the whole batch commits or the state is left unchanged. -/
def runTickTransaction (commits : Bool) (ids : List Nat) (now : Int)
    (channels : List Channel) : List Channel :=
  if commits then applyLastScrapedUpdates ids now channels else channels

/-- One delivery attempt of the fan-out (`sendAlerts`, alertSender.ts):
the recipient chat id, the payload item, and the outcome of this send. -/
structure SendAttempt where
  chatId : Int
  item : AlertItem
  ok : Bool
deriving DecidableEq, Repr

/-- `sendAlerts` (alertSender.ts): for every payload item and every
subscriber, fire one send.  Each send's rejection is caught by its own
`.catch(() => ...)`, so an outcome never alters the set of attempts; the
environment `sendOk` gives each attempt's outcome. -/
def sendAlerts (sendOk : Int → AlertItem → Bool) (payload : AlertsPayload) :
    List SendAttempt :=
  payload.items.flatMap (fun p =>
    payload.subscriberIds.map (fun telegramId =>
      { chatId := telegramId, item := p, ok := sendOk telegramId p }))

/-! Helper lemmas. -/

theorem contains_iff {α : Type} [BEq α] [LawfulBEq α] (l : List α) (a : α) :
    l.contains a = true ↔ a ∈ l := by
  simp

theorem mem_existingIds (store : List MessageRow) (cid : Nat) (msgIds : List (Option Int))
    (x : Option Int) :
    x ∈ existingIds store cid msgIds ↔
      ∃ r ∈ store, r.channelId = cid ∧ r.telegramId = x ∧ x ∈ msgIds := by
  simp only [existingIds, List.mem_map, List.mem_filter, Bool.and_eq_true, beq_iff_eq,
    contains_iff]
  constructor
  · rintro ⟨r, ⟨hr, hcid, hmem⟩, rfl⟩
    exact ⟨r, hr, hcid, rfl, hmem⟩
  · rintro ⟨r, hr, hcid, rfl, hmem⟩
    exact ⟨r, ⟨hr, hcid, hmem⟩, rfl⟩

theorem prepareBatch_eq (cfg : BatchCfg) (msgs : List ScrapedMessage) :
    prepareBatch cfg msgs =
      ((msgs.filter (fun m => !cfg.existingSet.contains m.telegramId)).map (mkRow cfg),
       (msgs.filter (fun m => !cfg.existingSet.contains m.telegramId &&
           passesFilter cfg.excludeRules cfg.includeRules (normalize (cleanMessage m.text)))).map
         (mkPrep cfg)) := by
  induction msgs with
  | nil => rfl
  | cons m rest ih =>
    by_cases h : m.telegramId ∈ cfg.existingSet
    · simp [prepareBatch, h, ih, List.filter_cons]
    · by_cases hp : passesFilter cfg.excludeRules cfg.includeRules
        (normalize (cleanMessage m.text)) = true
      · simp [prepareBatch, h, hp, ih, List.filter_cons]
      · simp [prepareBatch, h, hp, ih, List.filter_cons]
theorem scanCapture_ne_nil (cs : List Char) : ∀ (acc r : List Char),
    scanCapture acc cs = some r → r ≠ [] := by
  induction cs with
  | nil => intro acc r h; simp [scanCapture] at h
  | cons c rest ih =>
    intro acc r h
    simp only [scanCapture] at h
    split at h
    · split at h
      · split at h
        · injection h with h'
          subst h'
          simp
        · exact ih _ _ h
      · exact ih _ _ h
    · exact absurd h (by simp)

theorem bgImageUrl_ne_empty (style : String) (u : String)
    (h : bgImageUrl style = some u) : u ≠ "" := by
  simp only [bgImageUrl, Option.map_eq_some'] at h
  rcases h with ⟨cap, hcap, rfl⟩
  have hne : cap ≠ [] := by
    have : ∀ cs : List Char, bgSearch cs = some cap → cap ≠ [] := by
      intro cs
      induction cs with
      | nil => intro h'; simp [bgSearch] at h'
      | cons c cs' ih =>
        intro h'
        simp only [bgSearch] at h'
        split at h'
        · injection h' with h''
          subst h''
          rename_i heq
          simp only [bgMatchAt] at heq
          split at heq
          · exact absurd heq (by simp)
          · split at heq
            · split at heq
              · exact scanCapture_ne_nil _ _ _ heq
              · exact absurd heq (by simp)
            · exact absurd heq (by simp)
        · exact ih h'
    exact this style.data hcap
  intro hu
  apply hne
  simpa using congrArg String.data hu

theorem processMessages_persisted (db : Db) (ch : Channel) (channelId : Nat)
    (messages : List ScrapedMessage) (t : String)
    (h : db.channels.find? (fun c => c.id == channelId) = some ch) :
    (processMessages db channelId messages t).1.persisted =
      (messages.filter (fun m =>
        !(existingIds db.store channelId (messages.map (fun m' => m'.telegramId))).contains
          m.telegramId)).map (fun m =>
        { telegramId := m.telegramId
          message := cleanMessage m.text
          mediaUrl := m.mediaUrl
          mediaType := m.mediaType
          date := m.date
          channelId := channelId
          sent := passesFilter (excludeRulesOf db.rules) (includeRulesOf db.rules)
            (normalize (cleanMessage m.text)) }) := by
  simp only [processMessages, h, prepareBatch_eq]
  rfl

theorem processMessages_store (db : Db) (ch : Channel) (channelId : Nat)
    (messages : List ScrapedMessage) (t : String)
    (h : db.channels.find? (fun c => c.id == channelId) = some ch) :
    (processMessages db channelId messages t).2.store =
      db.store ++ (processMessages db channelId messages t).1.persisted := by
  simp only [processMessages, h]

theorem processMessages_tables (db : Db) (channelId : Nat)
    (messages : List ScrapedMessage) (t : String) :
    (processMessages db channelId messages t).2.channels = db.channels ∧
    (processMessages db channelId messages t).2.users = db.users ∧
    (processMessages db channelId messages t).2.rules = db.rules := by
  cases hf : db.channels.find? (fun c => c.id == channelId) <;>
    simp [processMessages, hf]

theorem processMessages_payload_items (db : Db) (ch : Channel) (channelId : Nat)
    (messages : List ScrapedMessage) (t : String)
    (h : db.channels.find? (fun c => c.id == channelId) = some ch)
    (pl : AlertsPayload)
    (hpl : (processMessages db channelId messages t).1.payload = some pl) :
    ∀ it ∈ pl.items, ∃ m ∈ messages,
      (¬ m.telegramId ∈ existingIds db.store channelId
          (messages.map (fun m' => m'.telegramId))) ∧
      it.telegramId = m.telegramId := by
  simp only [processMessages, h, prepareBatch_eq] at hpl
  split at hpl
  · injection hpl with h'
    subst h'
    intro it hit
    simp only [List.mem_map] at hit
    obtain ⟨m, hm, rfl⟩ := hit
    rw [List.mem_filter, Bool.and_eq_true] at hm
    exact ⟨m, hm.1, by simpa using hm.2.1, rfl⟩
  · exact absurd hpl (by simp)

theorem processMessages_persisted_nil (db : Db) (channelId : Nat)
    (messages : List ScrapedMessage) (t : String)
    (hall : ∀ m ∈ messages, m.telegramId ∈ existingIds db.store channelId
      (messages.map (fun m' => m'.telegramId))) :
    (processMessages db channelId messages t).1.persisted = [] := by
  cases hf : db.channels.find? (fun c => c.id == channelId) with
  | none => simp [processMessages, hf]
  | some ch =>
    rw [processMessages_persisted db ch channelId messages t hf]
    have hnil : (messages.filter (fun m =>
        !(existingIds db.store channelId (messages.map (fun m' => m'.telegramId))).contains
          m.telegramId)) = [] := by
      apply List.filter_eq_nil_iff.mpr
      intro m hm
      simp [hall m hm]
    rw [hnil]
    rfl

theorem processMessages_payload_none (db : Db) (channelId : Nat)
    (messages : List ScrapedMessage) (t : String)
    (hall : ∀ m ∈ messages, m.telegramId ∈ existingIds db.store channelId
      (messages.map (fun m' => m'.telegramId))) :
    (processMessages db channelId messages t).1.payload = none := by
  cases hf : db.channels.find? (fun c => c.id == channelId) with
  | none => simp [processMessages, hf]
  | some ch =>
    simp only [processMessages, hf, prepareBatch_eq]
    have hnil : (messages.filter (fun m =>
        !(existingIds db.store channelId (messages.map (fun m' => m'.telegramId))).contains
          m.telegramId &&
        passesFilter (excludeRulesOf db.rules) (includeRulesOf db.rules)
          (normalize (cleanMessage m.text)))) = [] := by
      apply List.filter_eq_nil_iff.mpr
      intro m hm
      simp [hall m hm]
    rw [hnil]
    rfl

theorem processMessages_db_stable (db : Db) (channelId : Nat)
    (messages : List ScrapedMessage) (t : String)
    (hall : ∀ m ∈ messages, m.telegramId ∈ existingIds db.store channelId
      (messages.map (fun m' => m'.telegramId))) :
    (processMessages db channelId messages t).2 = db := by
  cases hf : db.channels.find? (fun c => c.id == channelId) with
  | none => simp [processMessages, hf]
  | some ch =>
    have hnil := processMessages_persisted_nil db channelId messages t hall
    have hst := processMessages_store db ch channelId messages t hf
    rw [hnil, List.append_nil] at hst
    have htab := processMessages_tables db channelId messages t
    cases hres : (processMessages db channelId messages t).2
    rw [hres] at hst htab
    cases db
    simp_all

/-! Claim theorems. -/

theorem exclude_match_iff (rules : List FilterPhrase) (t : String) :
    (excludeRulesOf rules).any (fun p => includesJS t p) = true ↔
      ∃ r ∈ rules, r.exclude = true ∧ (normalize r.phrase).data <:+: t.data := by
  simp only [excludeRulesOf, includesJS, List.any_eq_true, List.mem_map, List.mem_filter]
  constructor
  · rintro ⟨p, ⟨r, ⟨hr, hx⟩, rfl⟩, hc⟩
    exact ⟨r, hr, hx, (containsSeq_iff _ _).mp hc⟩
  · rintro ⟨r, hr, hx, hc⟩
    exact ⟨normalize r.phrase, ⟨r, ⟨hr, hx⟩, rfl⟩, (containsSeq_iff _ _).mpr hc⟩

theorem include_match_iff (rules : List FilterPhrase) (t : String) :
    (includeRulesOf rules).any (fun p => includesJS t p) = true ↔
      ∃ r ∈ rules, r.exclude = false ∧ (normalize r.phrase).data <:+: t.data := by
  simp only [includeRulesOf, includesJS, List.any_eq_true, List.mem_map, List.mem_filter,
    Bool.not_eq_true']
  constructor
  · rintro ⟨p, ⟨r, ⟨hr, hx⟩, rfl⟩, hc⟩
    exact ⟨r, hr, hx, (containsSeq_iff _ _).mp hc⟩
  · rintro ⟨r, hr, hx, hc⟩
    exact ⟨normalize r.phrase, ⟨r, ⟨hr, hx⟩, rfl⟩, (containsSeq_iff _ _).mpr hc⟩

/-- C2: for every item and every rule set, the item passes the filter if
and only if no normalised exclude-phrase is a substring of the cleaned
text normalised for matching and at least one normalised include-phrase
is; in particular an item whose normalised text contains an
exclude-phrase never passes, even when it also contains include-phrases. -/
theorem exclusion_takes_precedence (rules : List FilterPhrase) (cleanedText : String) :
    passesFilter (excludeRulesOf rules) (includeRulesOf rules) (normalize cleanedText) = true ↔
      ((∀ r ∈ rules, r.exclude = true →
          ¬ (normalize r.phrase).data <:+: (normalize cleanedText).data) ∧
       (∃ r ∈ rules, r.exclude = false ∧
          (normalize r.phrase).data <:+: (normalize cleanedText).data)) := by
  rw [passesFilter, Bool.and_eq_true, Bool.not_eq_true']
  constructor
  · rintro ⟨hex, hinc⟩
    refine ⟨?_, (include_match_iff rules (normalize cleanedText)).mp hinc⟩
    intro r hr hx hc
    have hany : (excludeRulesOf rules).any
        (fun p => includesJS (normalize cleanedText) p) = true :=
      (exclude_match_iff rules (normalize cleanedText)).mpr ⟨r, hr, hx, hc⟩
    rw [hex] at hany
    exact absurd hany (by simp)
  · rintro ⟨hex, hinc⟩
    refine ⟨?_, (include_match_iff rules (normalize cleanedText)).mpr hinc⟩
    rw [Bool.eq_false_iff]
    intro hany
    obtain ⟨r, hr, hx, hc⟩ := (exclude_match_iff rules (normalize cleanedText)).mp hany
    exact hex r hr hx hc

/-- C7: with an empty rule set nothing ever passes the filter, every
newly persisted message carries `sent = false`, and no alert payload is
published for the batch. -/
theorem no_rules_no_pass (channels : List Channel) (users : List User)
    (store : List MessageRow) (channelId : Nat) (messages : List ScrapedMessage)
    (receivedTime : String) :
    (∀ text : String,
        passesFilter (excludeRulesOf []) (includeRulesOf []) text = false) ∧
    (∀ row ∈ (processMessages ⟨channels, users, [], store⟩ channelId messages
        receivedTime).1.persisted, row.sent = false) ∧
    (processMessages ⟨channels, users, [], store⟩ channelId messages
        receivedTime).1.payload = none := by
  have hfalse : ∀ text : String,
      passesFilter (excludeRulesOf []) (includeRulesOf []) text = false := by
    intro text
    simp [passesFilter, excludeRulesOf, includeRulesOf]
  refine ⟨hfalse, ?_, ?_⟩ <;>
    simp only [processMessages]
  · cases hfind : (Db.mk channels users [] store).channels.find? (fun c => c.id == channelId) with
    | none => simp
    | some ch =>
      simp only [hfind, prepareBatch_eq]
      intro row hrow
      obtain ⟨m, hm, rfl⟩ := List.mem_map.mp hrow
      simp [mkRow, hfalse]
  · cases hfind : (Db.mk channels users [] store).channels.find? (fun c => c.id == channelId) with
    | none => simp
    | some ch =>
      simp only [hfind, prepareBatch_eq]
      simp [hfalse]

/-- C1: re-ingesting an identical batch a second time persists zero
additional messages, publishes zero alert payloads and leaves the store
unchanged; and an item already present under `(feedId, sourceItemId)` is
never re-persisted and never appears in an alert payload, even if its raw
content differs from the stored copy. -/
theorem dedupe_idempotent (db : Db) (channelId : Nat) (messages : List ScrapedMessage)
    (t1 t2 : String) :
    ((processMessages (processMessages db channelId messages t1).2 channelId messages
        t2).1.persisted = [] ∧
     (processMessages (processMessages db channelId messages t1).2 channelId messages
        t2).1.payload = none ∧
     (processMessages (processMessages db channelId messages t1).2 channelId messages
        t2).2 = (processMessages db channelId messages t1).2) ∧
    (∀ m ∈ messages,
       m.telegramId ∈ existingIds db.store channelId
           (messages.map (fun m' => m'.telegramId)) →
       (∀ row ∈ (processMessages db channelId messages t1).1.persisted,
           row.telegramId ≠ m.telegramId) ∧
       (∀ pl, (processMessages db channelId messages t1).1.payload = some pl →
           ∀ it ∈ pl.items, it.telegramId ≠ m.telegramId)) := by
  cases hfind : db.channels.find? (fun c => c.id == channelId) with
  | none =>
    have h1 : processMessages db channelId messages t1 = (⟨[], none⟩, db) := by
      simp [processMessages, hfind]
    constructor
    · rw [h1]
      have h2 : processMessages db channelId messages t2 = (⟨[], none⟩, db) := by
        simp [processMessages, hfind]
      rw [show ((⟨[], none⟩, db) : ProcessResult × Db).2 = db from rfl, h2]
      exact ⟨rfl, rfl, rfl⟩
    · intro m hm hmem
      rw [h1]
      exact ⟨fun row hrow => absurd hrow (by simp), fun pl hpl => absurd hpl (by simp)⟩
  | some ch =>
    have hkey : ∀ m ∈ messages,
        m.telegramId ∈ existingIds (processMessages db channelId messages t1).2.store
          channelId (messages.map (fun m' => m'.telegramId)) := by
      intro m hm
      rw [processMessages_store db ch channelId messages t1 hfind,
        processMessages_persisted db ch channelId messages t1 hfind]
      by_cases hmem : m.telegramId ∈ existingIds db.store channelId
          (messages.map (fun m' => m'.telegramId))
      · obtain ⟨r, hr, hcid, hid, hin⟩ := (mem_existingIds _ _ _ _).mp hmem
        exact (mem_existingIds _ _ _ _).mpr ⟨r, List.mem_append_left _ hr, hcid, hid, hin⟩
      · apply (mem_existingIds _ _ _ _).mpr
        refine ⟨_, List.mem_append_right _
          (List.mem_map.mpr ⟨m, List.mem_filter.mpr ⟨hm, by simp [hmem]⟩, rfl⟩),
          rfl, rfl, List.mem_map.mpr ⟨m, hm, rfl⟩⟩
    constructor
    · refine ⟨?_, ?_, ?_⟩
      · exact processMessages_persisted_nil _ channelId messages t2 hkey
      · exact processMessages_payload_none _ channelId messages t2 hkey
      · exact processMessages_db_stable _ channelId messages t2 hkey
    · intro m hm hmem
      constructor
      · intro row hrow
        rw [processMessages_persisted db ch channelId messages t1 hfind] at hrow
        obtain ⟨m', hm', rfl⟩ := List.mem_map.mp hrow
        rw [List.mem_filter] at hm'
        have hnot : ¬ m'.telegramId ∈ existingIds db.store channelId
            (messages.map (fun x => x.telegramId)) := by simpa using hm'.2
        intro heq
        exact hnot (by rw [show m'.telegramId = m.telegramId from heq]; exact hmem)
      · intro pl hpl it hit
        obtain ⟨m', hm', hnot, hid⟩ :=
          processMessages_payload_items db ch channelId messages t1 hfind pl hpl it hit
        intro heq
        apply hnot
        rw [show m'.telegramId = m.telegramId from by rw [← hid, heq]]
        exact hmem

/-- C5: on a tick (with a live worker for every registry feed, as
`refreshWorkers` ensures before each cycle), a feed is dispatched iff the
time elapsed since its last poll (a never-polled feed counting its last
poll as 0) is at least its configured interval; the posted jobs are
exactly the due feeds' `(username, id)` pairs; and every due feed's
`lastScrapedAt` is set to the tick's time by the batched update. -/
theorem scheduler_dispatch_iff (now : Int) (workers : List Nat) (channels : List Channel)
    (hw : ∀ ch ∈ channels, workers.contains ch.id = true) :
    (∀ ch ∈ channels,
        (ch ∈ (triggerScrapeCycle now workers channels).toScrape ↔
          now - lastScrapeMs ch ≥ ch.scrapTimeout)) ∧
    ((triggerScrapeCycle now workers channels).dispatched =
      (triggerScrapeCycle now workers channels).toScrape.map
        (fun ch => (lastSegmentOr ch.link "", ch.id))) ∧
    (∀ ch ∈ channels, now - lastScrapeMs ch ≥ ch.scrapTimeout →
        { ch with lastScrapedAt := some now } ∈
          applyLastScrapedUpdates
            ((triggerScrapeCycle now workers channels).toScrape.map (fun c => c.id))
            now channels) := by
  have hmem : ∀ ch ∈ channels,
      (ch ∈ (triggerScrapeCycle now workers channels).toScrape ↔
        now - lastScrapeMs ch ≥ ch.scrapTimeout) := by
    intro ch hch
    simp only [triggerScrapeCycle, List.mem_filter, Bool.and_eq_true, dueAt]
    constructor
    · rintro ⟨-, hdue, -⟩
      exact of_decide_eq_true hdue
    · intro hdue
      exact ⟨hch, decide_eq_true hdue, hw ch hch⟩
  refine ⟨hmem, rfl, ?_⟩
  intro ch hch hdue
  have hin : ch ∈ (triggerScrapeCycle now workers channels).toScrape :=
    (hmem ch hch).mpr hdue
  have hid : ch.id ∈ (triggerScrapeCycle now workers channels).toScrape.map
      (fun c => c.id) := List.mem_map.mpr ⟨ch, hin, rfl⟩
  apply List.mem_map.mpr
  refine ⟨ch, hch, ?_⟩
  simp
  intro h
  exact absurd rfl (h ch hin)

/-- C6: the per-tick timestamp updates form one transaction: if it fails
the registry is unchanged (no feed updated), and if it commits every
dispatched feed's `lastScrapedAt` becomes the tick's time while
non-dispatched feeds are untouched either way. -/
theorem tick_timestamp_update_atomic (now : Int) (workers : List Nat)
    (channels : List Channel) (commits : Bool) :
    (runTickTransaction false
        ((triggerScrapeCycle now workers channels).toScrape.map (fun c => c.id))
        now channels = channels) ∧
    (∀ ch ∈ channels,
        ch.id ∈ (triggerScrapeCycle now workers channels).toScrape.map (fun c => c.id) →
        { ch with lastScrapedAt := some now } ∈
          runTickTransaction true
            ((triggerScrapeCycle now workers channels).toScrape.map (fun c => c.id))
            now channels) ∧
    (∀ ch ∈ channels,
        ¬ ch.id ∈ (triggerScrapeCycle now workers channels).toScrape.map (fun c => c.id) →
        ch ∈ runTickTransaction commits
          ((triggerScrapeCycle now workers channels).toScrape.map (fun c => c.id))
          now channels) := by
  refine ⟨rfl, ?_, ?_⟩
  · intro ch hch hid
    obtain ⟨x, hx, hxid⟩ := List.mem_map.mp hid
    apply List.mem_map.mpr
    refine ⟨ch, hch, ?_⟩
    simp
    intro h
    exact absurd hxid (h x hx)
  · intro ch hch hid
    cases commits with
    | false => exact hch
    | true =>
      apply List.mem_map.mpr
      refine ⟨ch, hch, ?_⟩
      simp
      intro x hx heq
      exact absurd (List.mem_map.mpr ⟨x, hx, heq⟩) hid

theorem sum_map_const_nat {α : Type} (l : List α) (k : Nat) :
    (l.map (fun _ => k)).sum = l.length * k := by
  induction l with
  | nil => simp
  | cons x xs ih => simp [ih, Nat.succ_mul, Nat.add_comm]

/-- C9: the delivery fan-out attempts one send per (payload item,
recipient) pair — the full product, in order — and the set of attempts
does not depend on any send's outcome: each attempt's result is exactly
its own send's outcome, so one failure cannot abort, alter or suppress
any other send, and the fan-out itself always returns (errors are
swallowed per send). -/
theorem delivery_fanout_swallows_failures (f g : Int → AlertItem → Bool)
    (payload : AlertsPayload) :
    ((sendAlerts f payload).map (fun a => (a.chatId, a.item)) =
      payload.items.flatMap (fun p => payload.subscriberIds.map (fun t => (t, p)))) ∧
    ((sendAlerts f payload).map (fun a => (a.chatId, a.item)) =
      (sendAlerts g payload).map (fun a => (a.chatId, a.item))) ∧
    (∀ a ∈ sendAlerts f payload, a.ok = f a.chatId a.item) ∧
    ((sendAlerts f payload).length =
      payload.items.length * payload.subscriberIds.length) := by
  have hshape : ∀ h : Int → AlertItem → Bool,
      (sendAlerts h payload).map (fun a => (a.chatId, a.item)) =
        payload.items.flatMap (fun p => payload.subscriberIds.map (fun t => (t, p))) := by
    intro h
    simp [sendAlerts, List.map_flatMap, List.map_map, Function.comp_def]
  refine ⟨hshape f, (hshape f).trans (hshape g).symm, ?_, ?_⟩
  · intro a ha
    simp only [sendAlerts, List.mem_flatMap, List.mem_map] at ha
    obtain ⟨p, hp, t, ht, rfl⟩ := ha
    rfl
  · simp [sendAlerts, List.length_flatMap, Function.comp_def, sum_map_const_nat]

/-- A message block whose video region carries its media locator in its
own direct `src` attribute: no inner `video` element, no photo region. -/
def videoSrcBlock : MsgBlock :=
  { dataPost := some "chan/7", text := "", hasPhotoRegion := false, hasVideoRegion := true,
    photoWrapPresent := false, photoWrapStyle := none, videoTagPresent := false,
    videoTagSrc := none, videoSrc := some "https://cdn/video.mp4", videoStyle := none,
    timeStr := some "2026-01-24T10:00:00+00:00", author := "" }

/-- C8 (counterexample): a media locator extracted from the video
region's direct media source attribute does not yield media kind video —
the produced item carries the locator with no media kind at all. -/
theorem media_kind_counterexample :
    (detectMedia videoSrcBlock).1 = some "https://cdn/video.mp4" ∧
    (detectMedia videoSrcBlock).2 ≠ some MediaType.video ∧
    parseBlock videoSrcBlock =
      some { telegramId := some 7, text := "", mediaUrl := some "https://cdn/video.mp4",
             mediaType := none, date := JsDate.mk "2026-01-24T10:00:00+00:00",
             sender := none } := by
  refine ⟨rfl, by decide, by decide⟩

/-- C8 (amended): when the photo region yields no locator, an extraction
via an inner `video` element yields media kind video (even preview-only),
and a background-image style locator on the video region yields media
kind video; but a locator taken from the video region's own direct source
attribute is produced with no media kind.  A locator extracted from the
photo region's background-image style always yields media kind photo. -/
theorem media_kind_of_video_region (b : MsgBlock) :
    (∀ u, b.photoWrapPresent = true → b.photoWrapStyle.bind bgImageUrl = some u →
        detectMedia b = (some u, some MediaType.photo)) ∧
    ((b.photoWrapPresent = false ∨ b.photoWrapStyle.bind bgImageUrl = none) →
      b.hasVideoRegion = true →
      ((b.videoTagPresent = true → detectMedia b = (b.videoTagSrc, some MediaType.video)) ∧
       (b.videoTagPresent = false → jsFalsyStr b.videoSrc = true →
         ∀ u, b.videoStyle.bind bgImageUrl = some u →
           detectMedia b = (some u, some MediaType.video)) ∧
       (b.videoTagPresent = false → ∀ u, b.videoSrc = some u → u ≠ "" →
         detectMedia b = (some u, none)))) := by
  constructor
  · intro u hp hbind
    have hne : u ≠ "" := by
      rcases Option.bind_eq_some.mp hbind with ⟨st, _, hurl⟩
      exact bgImageUrl_ne_empty st u hurl
    simp [detectMedia, hp, hbind, jsFalsyStr, hne]
  · rintro hfail hvid
    refine ⟨?_, ?_, ?_⟩
    · intro htag
      rcases hfail with hf | hf <;>
        simp [detectMedia, hf, hvid, htag, jsFalsyStr]
    · intro htag hsrc u hsty
      have hne : u ≠ "" := by
        rcases Option.bind_eq_some.mp hsty with ⟨st, _, hurl⟩
        exact bgImageUrl_ne_empty st u hurl
      have hcase : b.videoSrc = none ∨ b.videoSrc = some "" := by
        cases hv : b.videoSrc with
        | none => exact Or.inl rfl
        | some s =>
          right
          rw [hv] at hsrc
          simp [jsFalsyStr] at hsrc
          rw [hsrc]
      rcases hfail with hf | hf <;> rcases hcase with hs | hs <;>
        simp [detectMedia, hf, hvid, htag, hs, hsty, jsFalsyStr]
    · intro htag u hsrc hne
      rcases hfail with hf | hf <;>
        simp [detectMedia, hf, hvid, htag, hsrc, jsFalsyStr, hne]

theorem parseBlock_some_inv (b : MsgBlock) (m : ScrapedMessage)
    (h : parseBlock b = some m) :
    ∃ d, b.dataPost = some d ∧ d ≠ "" ∧
      m.telegramId = parseIntJS (lastSegmentOr d "0") ∧
    ∃ ts, b.timeStr = some ts ∧ ts ≠ "" ∧ m.date = JsDate.mk ts ∧ m.text = b.text ∧
    (b.text ≠ "" ∨ b.hasPhotoRegion = true ∨ b.hasVideoRegion = true) := by
  simp only [parseBlock] at h
  split at h
  · exact absurd h (by simp)
  · rename_i d hd
    split at h
    · exact absurd h (by simp)
    · rename_i hde
      split at h
      · exact absurd h (by simp)
      · rename_i hskip
        split at h
        · exact absurd h (by simp)
        · rename_i ts hts
          split at h
          · exact absurd h (by simp)
          · rename_i htse
            injection h with h'
            subst h'
            refine ⟨d, hd, by simpa using hde, rfl, ts, hts, by simpa using htse, rfl, rfl, ?_⟩
            by_cases h1 : b.text = ""
            · by_cases hp : b.hasPhotoRegion = true
              · exact Or.inr (Or.inl hp)
              · by_cases hv : b.hasVideoRegion = true
                · exact Or.inr (Or.inr hv)
                · exact absurd (by
                    simp [h1, Bool.eq_false_iff.mpr hp, Bool.eq_false_iff.mpr hv]) hskip
            · exact Or.inl h1

/-- C10: every item the parser returns comes from a block with a
non-empty post identifier (the item id being parsed from its last
segment), with a non-empty datetime attribute (carried as the item's
publish timestamp), and with either non-empty extracted text or a photo
or video region; a block lacking the id, lacking the timestamp, or having
neither text nor such a region contributes no item. -/
theorem parser_output_invariant (blocks : List MsgBlock) :
    (∀ m ∈ parseBlocks blocks, ∃ b ∈ blocks, parseBlock b = some m ∧
        ∃ d, b.dataPost = some d ∧ d ≠ "" ∧
          m.telegramId = parseIntJS (lastSegmentOr d "0") ∧
        ∃ ts, b.timeStr = some ts ∧ ts ≠ "" ∧ m.date = JsDate.mk ts ∧ m.text = b.text ∧
        (b.text ≠ "" ∨ b.hasPhotoRegion = true ∨ b.hasVideoRegion = true)) ∧
    (∀ b ∈ blocks,
        ((b.dataPost = none ∨ b.dataPost = some "") → parseBlock b = none) ∧
        ((b.timeStr = none ∨ b.timeStr = some "") → parseBlock b = none) ∧
        ((b.text = "" ∧ b.hasPhotoRegion = false ∧ b.hasVideoRegion = false) →
          parseBlock b = none)) := by
  constructor
  · intro m hm
    obtain ⟨b, hb, hpb⟩ := List.mem_filterMap.mp hm
    exact ⟨b, hb, hpb, parseBlock_some_inv b m hpb⟩
  · intro b _
    refine ⟨?_, ?_, ?_⟩
    · rintro (hd | hd) <;> simp [parseBlock, hd]
    · rintro (ht | ht) <;> cases hdp : b.dataPost <;> simp [parseBlock, ht, hdp]
    · rintro ⟨h1, h2, h3⟩
      cases hdp : b.dataPost <;> simp [parseBlock, h1, h2, h3, hdp]

/-! Concrete scenarios used by the witnesses. -/

def wCh : Channel := ⟨5, some "News", "https://t.me/news", 60000, none⟩

def wDb : Db :=
  ⟨[wCh], [⟨100, false, [5]⟩], [⟨"alert", false⟩],
   [⟨some 11, "old", none, none, ⟨"D0"⟩, 5, false⟩]⟩

def wMsg : ScrapedMessage := ⟨some 11, "fresh alert content", none, none, ⟨"D1"⟩, none⟩

def wMsg2 : ScrapedMessage := ⟨some 12, "another alert", none, none, ⟨"D2"⟩, none⟩

def wMsgPass : ScrapedMessage := ⟨some 21, "breaking alert", none, none, ⟨"D3"⟩, none⟩

/-- An item as the worker builds it from a block whose `data-post` last
segment is not numeric: `parseInt` yields NaN, modelled `none`. -/
def nanMsg : ScrapedMessage :=
  ⟨parseIntJS (lastSegmentOr "somechannel" "0"), "shelling alert", none, none, ⟨"D4"⟩, none⟩

def wF1 : Channel := ⟨1, none, "t.me/a", 2000, some 9500⟩

def wF2 : Channel := ⟨2, none, "t.me/b", 2000, some 7500⟩

def wPayload : AlertsPayload := ⟨5, "News", [⟨"msg", none, none, some 11⟩], [100, 101]⟩

def videoTagBlock : MsgBlock :=
  { dataPost := some "chan/8", text := "", hasPhotoRegion := false, hasVideoRegion := true,
    photoWrapPresent := false, photoWrapStyle := none, videoTagPresent := true,
    videoTagSrc := some "https://tag.mp4", videoSrc := none, videoStyle := none,
    timeStr := some "2026-01-24T10:05:00+00:00", author := "" }

def emptyBlock : MsgBlock :=
  { dataPost := some "chan/22", text := "", hasPhotoRegion := false, hasVideoRegion := false,
    photoWrapPresent := false, photoWrapStyle := none, videoTagPresent := false,
    videoTagSrc := none, videoSrc := none, videoStyle := none,
    timeStr := some "2026-01-24T10:06:00+00:00", author := "" }

/-- C3: at the failing input — a batch holding one item whose id parsed
to NaN (`parseInt` of the non-numeric last segment of its post
identifier) and one new passing item — the source throws at
`BigInt(m.telegramId)` (scrapper.ts line 171) before the bulk write, so
nothing is persisted although the batch contains a dedupe survivor;
dropping the malformed item, that same survivor is persisted exactly
once, flagged as passing.  This contradicts the spec's failure
semantics: a single malformed raw item must not abort the rest of the
batch. -/
theorem persist_aborted_by_nan_id :
    processMessagesRun wDb 5 [nanMsg, wMsgPass] "12:00:00" = Except.error () ∧
    nanMsg.telegramId = none ∧
    ¬ wMsgPass.telegramId ∈ existingIds wDb.store 5
        ([nanMsg, wMsgPass].map (fun m => m.telegramId)) ∧
    processMessagesRun wDb 5 [wMsgPass] "12:00:00" =
      Except.ok (processMessages wDb 5 [wMsgPass] "12:00:00") ∧
    (processMessages wDb 5 [wMsgPass] "12:00:00").1.persisted =
      [{ telegramId := some 21, message := "breaking alert", mediaUrl := none,
         mediaType := none, date := ⟨"D3"⟩, channelId := 5, sent := true }] :=
  ⟨by decide, by decide, by decide, by decide, by decide⟩

/-- C4: at the same failing input the source aborts at
`BigInt(m.telegramId)` (scrapper.ts line 171) before reaching
`emitAlerts` and publishes nothing, although the batch holds a passing
dedupe survivor and the feed has an eligible subscriber; dropping the
malformed item, the payload is published. -/
theorem alert_aborted_by_nan_id :
    processMessagesRun wDb 5 [nanMsg, wMsgPass] "12:00:00" = Except.error () ∧
    passesFilter (excludeRulesOf wDb.rules) (includeRulesOf wDb.rules)
      (normalize (cleanMessage wMsgPass.text)) = true ∧
    (eligibleSubscribers wDb.users 5).map (fun u => u.telegramId) = [100] ∧
    (processMessages wDb 5 [wMsgPass] "12:00:00").1.payload.isSome = true :=
  ⟨by decide, by decide, by decide, by decide⟩

/-- C1 witness: re-ingesting `[wMsg, wMsg2]` persists nothing, publishes
nothing and leaves the store unchanged; and the row persisted for the new
item does not carry the already-present item's id. -/
theorem dedupe_idempotent_witness :
    ((processMessages (processMessages wDb 5 [wMsg, wMsg2] "10:00:00").2 5 [wMsg, wMsg2]
        "10:00:05").1.persisted = [] ∧
     (processMessages (processMessages wDb 5 [wMsg, wMsg2] "10:00:00").2 5 [wMsg, wMsg2]
        "10:00:05").1.payload = none ∧
     (processMessages (processMessages wDb 5 [wMsg, wMsg2] "10:00:00").2 5 [wMsg, wMsg2]
        "10:00:05").2 = (processMessages wDb 5 [wMsg, wMsg2] "10:00:00").2) ∧
    ({ telegramId := some 12, message := "another alert", mediaUrl := none, mediaType := none,
       date := ⟨"D2"⟩, channelId := 5, sent := true } : MessageRow).telegramId ≠
      wMsg.telegramId :=
  ⟨(dedupe_idempotent wDb 5 [wMsg, wMsg2] "10:00:00" "10:00:05").1,
   ((dedupe_idempotent wDb 5 [wMsg, wMsg2] "10:00:00" "10:00:05").2 wMsg (by decide)
      (by decide)).1 _ (by decide)⟩

/-- C2 witness: a text containing the single include-phrase passes. -/
theorem exclusion_takes_precedence_witness :
    passesFilter (excludeRulesOf [⟨"alert", false⟩]) (includeRulesOf [⟨"alert", false⟩])
      (normalize "Big Alert") = true :=
  (exclusion_takes_precedence [⟨"alert", false⟩] "Big Alert").mpr
    ⟨by
      intro r hr hx
      simp only [List.mem_singleton] at hr
      rw [hr] at hx
      exact absurd hx (by decide),
     ⟨"alert", false⟩, by decide, rfl, (containsSeq_iff _ _).mp (by decide)⟩

/-- C5 witness: with interval 2000ms, a feed last polled 500ms ago is not
dispatched, one last polled 2500ms ago is dispatched and its timestamp is
set to the tick's time. -/
theorem scheduler_dispatch_iff_witness :
    (wF2 ∈ (triggerScrapeCycle 10000 [1, 2] [wF1, wF2]).toScrape ∧
     ¬ wF1 ∈ (triggerScrapeCycle 10000 [1, 2] [wF1, wF2]).toScrape) ∧
    { wF2 with lastScrapedAt := some 10000 } ∈
      applyLastScrapedUpdates
        ((triggerScrapeCycle 10000 [1, 2] [wF1, wF2]).toScrape.map (fun c => c.id))
        10000 [wF1, wF2] := by
  have h := scheduler_dispatch_iff 10000 [1, 2] [wF1, wF2] (by decide)
  refine ⟨⟨(h.1 wF2 (by decide)).mpr (by decide), ?_⟩, h.2.2 wF2 (by decide) (by decide)⟩
  intro hmem
  exact absurd ((h.1 wF1 (by decide)).mp hmem) (by decide)

/-- C6 witness: the failed transaction leaves the registry unchanged; the
committed one updates the dispatched feed's timestamp. -/
theorem tick_timestamp_update_atomic_witness :
    runTickTransaction false
        ((triggerScrapeCycle 10000 [1, 2] [wF1, wF2]).toScrape.map (fun c => c.id))
        10000 [wF1, wF2] = [wF1, wF2] ∧
    { wF2 with lastScrapedAt := some 10000 } ∈
      runTickTransaction true
        ((triggerScrapeCycle 10000 [1, 2] [wF1, wF2]).toScrape.map (fun c => c.id))
        10000 [wF1, wF2] := by
  have h := tick_timestamp_update_atomic 10000 [1, 2] [wF1, wF2] true
  exact ⟨h.1, h.2.1 wF2 (by decide) (by decide)⟩

/-- C7 witness: with no rules, a concrete text fails the filter and a
concrete batch publishes nothing. -/
theorem no_rules_no_pass_witness :
    passesFilter (excludeRulesOf []) (includeRulesOf []) (normalize "anything") = false ∧
    (processMessages ⟨[wCh], [⟨100, false, [5]⟩], [], []⟩ 5 [wMsgPass]
      "08:00:00").1.payload = none := by
  have h := no_rules_no_pass [wCh] [⟨100, false, [5]⟩] [] 5 [wMsgPass] "08:00:00"
  exact ⟨h.1 (normalize "anything"), h.2.2⟩

/-- C8 witness (amended theorem): a locator from an inner video element
yields kind video on a concrete block. -/
theorem media_kind_of_video_region_witness :
    detectMedia videoTagBlock = (some "https://tag.mp4", some MediaType.video) :=
  ((media_kind_of_video_region videoTagBlock).2 (Or.inl rfl) rfl).1 rfl

/-- C9 witness: with one item and two recipients the fan-out attempts the
same two sends whether every send fails or every send succeeds. -/
theorem delivery_fanout_swallows_failures_witness :
    ((sendAlerts (fun _ _ => false) wPayload).map (fun a => (a.chatId, a.item)) =
      (sendAlerts (fun _ _ => true) wPayload).map (fun a => (a.chatId, a.item))) ∧
    (sendAlerts (fun _ _ => false) wPayload).length = 2 := by
  have h := delivery_fanout_swallows_failures (fun _ _ => false) (fun _ _ => true) wPayload
  exact ⟨h.2.1, by rw [h.2.2.2]; decide⟩

/-- C10 witness: a block with an id and a timestamp but neither text nor
photo/video region contributes no item. -/
theorem parser_output_invariant_witness :
    parseBlock emptyBlock = none :=
  ((parser_output_invariant [emptyBlock]).2 emptyBlock (by decide)).2.2 ⟨rfl, rfl, rfl⟩

end AlertScraper
